import Mathlib

/-!
Verification of the farm-sampling script `sample.py` (jonnyhuck/farm-sampling).

The script draws rotated square sample plots inside an AOI boundary, aggregates
the GRID_CODE values of an underlying point dataset falling inside each accepted
plot, and records mean / population standard deviation / area per plot.

Shallow embedding conventions:
- Coordinates and attribute values are `ℝ` (the script uses floats).
- A polygon is its list of vertices (`List Point`); shapely closes the ring
  implicitly, so edges are taken cyclically.
- Python `int(...)` on a float truncates toward zero; modelled by `pyInt`.
- `shapely.affinity.rotate(poly, 45, origin='centroid')` rotates counter-
  clockwise by 45 degrees about the area (shoelace) centroid of the polygon.
- `statistics.mean` / `statistics.pstdev` raise `StatisticsError` on empty
  input; modelled as `Except StatsError ℝ`.
- The numpy uniform draws, the rtree index and shapely's polygon-in-polygon
  test are external collaborators: they enter the model as parameters (a draw
  stream, a bbox-query function, a Boolean containment oracle), with their
  contracts appearing as hypotheses where a claim needs them.  The exact
  point-in-polygon test that `GeoSeries.within` performs against the candidate
  square is modelled concretely (`ptWithin`): the candidate squares the script
  builds are convex and clockwise-oriented, for which strict interior
  membership is exactly "strictly on the inner side of every directed edge".
-/

namespace Farm

/-- A 2D point with real coordinates. -/
abbrev Point : Type := ℝ × ℝ

/-- Python `int(x)` applied to a float: truncation toward zero
(`int(-2.5) == -2`), which is `⌊x⌋` for `x ≥ 0` and `⌈x⌉` for `x < 0`.
Source: `sample.py` line 80. -/
noncomputable def pyInt (x : ℝ) : ℤ :=
  if 0 ≤ x then ⌊x⌋ else ⌈x⌉

/-- The origin of the candidate box, `sample.py` line 80:
`point = [int(uniform(bounds[0], bounds[2]-size)), int(uniform(bounds[1], bounds[3]-size))]`.
`rx`, `ry` are the values returned by the two uniform draws. -/
noncomputable def originPt (rx ry : ℝ) : ℤ × ℤ :=
  (pyInt rx, pyInt ry)

/-- Side length of the candidate square, `sample.py` line 77:
`size = (uniform(sample_size[0], sample_size[1]) * 10000)**0.5`,
where `a` is the value returned by the uniform draw (hectares). -/
noncomputable def sideLen (a : ℝ) : ℝ :=
  Real.sqrt (a * 10000)

/-- The axis-aligned square of `sample.py` lines 83–84:
`Polygon([(point[0], point[1]), (point[0], point[1]+size), (point[0]+size, point[1]+size), (point[0]+size, point[1])])`. -/
def squareAt (px py L : ℝ) : List Point :=
  [(px, py), (px, py + L), (px + L, py + L), (px + L, py)]

/-- The directed edges of a polygon, taken cyclically (shapely closes the
exterior ring). -/
def edgesOf (poly : List Point) : List (Point × Point) :=
  poly.zip (poly.drop 1 ++ poly.take 1)

/-- Cross product of two points viewed as plane vectors. -/
def cross2 (u v : Point) : ℝ :=
  u.1 * v.2 - u.2 * v.1

/-- Shoelace sum `Σ (xᵢ·yᵢ₊₁ − xᵢ₊₁·yᵢ)` over the cyclic edges; twice the
signed area of the polygon. -/
def shoelace (poly : List Point) : ℝ :=
  ((edgesOf poly).map (fun e => cross2 e.1 e.2)).sum

/-- Polygon area as shapely's `.area` reports it: absolute value of the signed
shoelace area. -/
noncomputable def polyArea (poly : List Point) : ℝ :=
  |shoelace poly| / 2

/-- Area centroid of a polygon (what shapely's `origin='centroid'` uses):
`Cx = Σ (xᵢ+xᵢ₊₁)·crᵢ / (3·S)`, `Cy = Σ (yᵢ+yᵢ₊₁)·crᵢ / (3·S)` with
`crᵢ` the edge cross terms and `S` the shoelace sum. -/
noncomputable def polyCentroid (poly : List Point) : Point :=
  (((edgesOf poly).map (fun e => (e.1.1 + e.2.1) * cross2 e.1 e.2)).sum / (3 * shoelace poly),
   ((edgesOf poly).map (fun e => (e.1.2 + e.2.2) * cross2 e.1 e.2)).sum / (3 * shoelace poly))

/-- Counterclockwise rotation of point `p` about point `o` by `θ` radians. -/
noncomputable def rotAbout (o : Point) (θ : ℝ) (p : Point) : Point :=
  (o.1 + Real.cos θ * (p.1 - o.1) - Real.sin θ * (p.2 - o.2),
   o.2 + Real.sin θ * (p.1 - o.1) + Real.cos θ * (p.2 - o.2))

/-- `shapely.affinity.rotate(poly, deg, origin='centroid')`: rotate every
vertex about the polygon's area centroid by `deg` degrees counterclockwise. -/
noncomputable def rotatePoly (poly : List Point) (deg : ℝ) : List Point :=
  poly.map (rotAbout (polyCentroid poly) (deg * Real.pi / 180))

/-- The candidate geometry of `sample.py` lines 76–84: the axis-aligned square
of side `sideLen a` anchored at the truncated origin, rotated by the literal
45 degrees about its centroid.  `a`, `rx`, `ry` are the three uniform draws of
one loop iteration. -/
noncomputable def candidate (a rx ry : ℝ) : List Point :=
  rotatePoly (squareAt ((originPt rx ry).1 : ℝ) ((originPt rx ry).2 : ℝ) (sideLen a)) 45

/-- Helper shape for proofs: the vertex list that the rotated candidate square
works out to, a diamond of half-diagonal `h` centred at `(cx, cy)`. -/
def diamond (cx cy h : ℝ) : List Point :=
  [(cx, cy - h), (cx - h, cy), (cx, cy + h), (cx + h, cy)]

/-- Modelled from the spec's words (§4.3 steps 3–4): the axis-aligned square
with corners `(x,y), (x,y+side), (x+side,y+side), (x+side,y)` rotated by
exactly 45 degrees about its centroid (which, for a square, is its centre).
Used to compare the spec's description of the candidate with the code's. -/
noncomputable def rotatedSquareSpec (o : ℤ × ℤ) (L : ℝ) : List Point :=
  [rotAbout ((o.1 : ℝ) + L / 2, (o.2 : ℝ) + L / 2) (45 * Real.pi / 180) ((o.1 : ℝ), (o.2 : ℝ)),
   rotAbout ((o.1 : ℝ) + L / 2, (o.2 : ℝ) + L / 2) (45 * Real.pi / 180) ((o.1 : ℝ), (o.2 : ℝ) + L),
   rotAbout ((o.1 : ℝ) + L / 2, (o.2 : ℝ) + L / 2) (45 * Real.pi / 180) ((o.1 : ℝ) + L, (o.2 : ℝ) + L),
   rotAbout ((o.1 : ℝ) + L / 2, (o.2 : ℝ) + L / 2) (45 * Real.pi / 180) ((o.1 : ℝ) + L, (o.2 : ℝ))]

/-- An axis-aligned bounding box `(xmin, ymin, xmax, ymax)` as shapely's
`.bounds` reports it. -/
structure Box where
  xmin : ℝ
  ymin : ℝ
  xmax : ℝ
  ymax : ℝ

/-- Bounding box of a polygon: min/max of the vertex coordinates
(`polygon.bounds` in `sample.py` line 97). -/
noncomputable def polyBounds : List Point → Box
  | [] => ⟨0, 0, 0, 0⟩
  | p :: ps =>
      ps.foldl (fun b q => ⟨min b.xmin q.1, min b.ymin q.2, max b.xmax q.1, max b.ymax q.2⟩)
        ⟨p.1, p.2, p.1, p.2⟩

/-- A point lies in a box (the rtree bbox-intersection condition for the
degenerate bounding box of a point record). -/
def ptInBox (p : Point) (b : Box) : Prop :=
  b.xmin ≤ p.1 ∧ p.1 ≤ b.xmax ∧ b.ymin ≤ p.2 ∧ p.2 ≤ b.ymax

/-- Exact point-in-polygon test used against the candidate square
(`possible_matches.within(polygon)`, `sample.py` line 98): the point is
strictly on the inner side of every directed edge.  For the convex,
clockwise-oriented squares the script builds, this is exactly shapely's
strict-interior `within`. -/
def ptWithin (p : Point) (poly : List Point) : Prop :=
  ∀ e ∈ edgesOf poly,
    (e.2.1 - e.1.1) * (p.2 - e.1.2) - (e.2.2 - e.1.2) * (p.1 - e.1.1) < 0

/-- Error raised by Python's `statistics` functions on empty input
(`StatisticsError`). -/
inductive StatsError where
  | emptyData
deriving DecidableEq

/-- Python `statistics.mean`: errors on an empty list, otherwise the
arithmetic mean (`sample.py` line 102). -/
noncomputable def pyMean : List ℝ → Except StatsError ℝ
  | [] => .error .emptyData
  | x :: xs => .ok ((x :: xs).sum / ((x :: xs).length : ℝ))

/-- Python `statistics.pstdev`: errors on an empty list, otherwise the
population standard deviation, denominator `N` (`sample.py` line 103). -/
noncomputable def pyPstdev : List ℝ → Except StatsError ℝ
  | [] => .error .emptyData
  | x :: xs =>
      .ok (Real.sqrt
        (((x :: xs).map (fun v => (v - (x :: xs).sum / ((x :: xs).length : ℝ)) ^ 2)).sum /
          ((x :: xs).length : ℝ)))

/-- The aggregation pipeline of `sample.py` lines 96–101: query the rtree for
the candidate's bounding box, look the returned row ids up in the dataset
(`data.iloc`), narrow by the exact point-in-polygon test, and take the
GRID_CODE attribute values.  `data` is the point dataset (location, value);
`idxQuery` is the rtree `idx.intersection` oracle. -/
noncomputable def aggVals (data : List (Point × ℝ)) (idxQuery : Box → List ℕ)
    (poly : List Point) : List ℝ :=
  (((idxQuery (polyBounds poly)).filterMap (fun i => data.get? i)).filter
    (fun pv => @decide (ptWithin pv.1 poly) (Classical.propDecidable _))).map
    (fun pv => pv.2)

/-- The per-size-class inputs of the sampling loop: the configuration
(`sample_n`, `termination_f`, the `[lo, hi]` size class), the loaded data and
AOI, and the external collaborators (rtree query, shapely polygon-in-polygon
test, and the stream of uniform draws — iteration `c` uses `draws c`). -/
structure Params where
  n : ℕ
  f : ℕ
  lo : ℝ
  hi : ℝ
  aoi : List (List Point)
  data : List (Point × ℝ)
  idxQuery : Box → List ℕ
  polyWithin : List Point → List Point → Bool
  draws : ℕ → ℝ × ℝ × ℝ

/-- The mutable state of the per-size-class loop (`sample.py` lines 59–65):
the attempt counter `count` and the three result lists. -/
structure LoopState where
  count : ℕ
  out_mean : List ℝ
  out_stdev : List ℝ
  out_geom : List (List Point)

/-- How a run of the loop ended: the while-guard became false (`reached`),
the termination budget was hit (`gaveUp`), or the modelling fuel ran out
(`fuelOut`; shown unreachable when the fuel is the budget). -/
inductive ExitKind where
  | reached
  | gaveUp
  | fuelOut
deriving DecidableEq

/-- Initial loop state (`sample.py` lines 59–65). -/
def initState : LoopState :=
  ⟨0, [], [], []⟩

/-- The candidate generated at iteration `c` from the draw stream. -/
noncomputable def candAt (P : Params) (c : ℕ) : List Point :=
  candidate (P.draws c).1 (P.draws c).2.1 (P.draws c).2.2

/-- The while loop of `sample.py` lines 68–104, fuel-indexed.  One iteration:
bump `count`; give up when it hits `sample_n * termination_f`; generate a
candidate; reject it unless it is `within` some AOI polygon (tested
polygon-by-polygon, OR-ed); otherwise aggregate the contained point values,
compute mean and pstdev (an empty aggregate raises, aborting the run), and
append to the three result lists. -/
noncomputable def runLoop (P : Params) : ℕ → LoopState → Except StatsError (ExitKind × LoopState)
  | 0, st => .ok (.fuelOut, st)
  | fuel + 1, st =>
      if st.out_geom.length < P.n then
        if st.count + 1 = P.n * P.f then
          .ok (.gaveUp, { st with count := st.count + 1 })
        else
          if P.aoi.any (fun g => P.polyWithin (candAt P (st.count + 1)) g) = true then
            match pyMean (aggVals P.data P.idxQuery (candAt P (st.count + 1))),
                  pyPstdev (aggVals P.data P.idxQuery (candAt P (st.count + 1))) with
            | .error e, _ => .error e
            | .ok _, .error e => .error e
            | .ok m, .ok sd =>
                runLoop P fuel
                  ⟨st.count + 1, st.out_mean ++ [m], st.out_stdev ++ [sd],
                   st.out_geom ++ [candAt P (st.count + 1)]⟩
          else
            runLoop P fuel { st with count := st.count + 1 }
      else .ok (.reached, st)

/-- One exported record set (`sample.py` lines 107–110): the three columns
plus the derived `area` column `geometry.area * 0.0001`. -/
structure ExportRec where
  mean : List ℝ
  stdev : List ℝ
  geom : List (List Point)
  area : List ℝ

/-- The export step of `sample.py` lines 106–111: a file is written only when
at least one sample was accepted (`if len(out_geom) > 0`); otherwise nothing
happens (no file, no error). -/
noncomputable def exportResult (st : LoopState) : Option ExportRec :=
  if st.out_geom.length > 0 then
    some ⟨st.out_mean, st.out_stdev, st.out_geom,
          st.out_geom.map (fun g => polyArea g * 0.0001)⟩
  else none

/-- The `SETTINGS` block of `sample.py` (lines 20–29). -/
def sample_n : ℕ := 100

/-- Iteration multiplier after which a size class gives up (`sample.py` line 21). -/
def termination_f : ℕ := 500

/-- The configured `[min, max]` size classes in hectares (`sample.py` lines 22–29). -/
def sample_sizes : List (ℝ × ℝ) :=
  [(0.5, 2), (2, 10), (0.01, 1), (1, 2), (2, 5), (5, 10)]

/-- Concrete parameter set used by several witnesses: one wanted sample,
budget 2, an empty AOI (so every candidate is rejected), a one-point dataset. -/
noncomputable def P0 : Params :=
  { n := 1, f := 2, lo := 1, hi := 1, aoi := [], data := [((0, 0), 5)],
    idxQuery := fun _ => [], polyWithin := fun _ _ => false, draws := fun _ => (1, 0, 0) }

/-- Concrete parameter set for the empty-aggregation witness: the AOI oracle
accepts everything but the index returns no rows. -/
noncomputable def P1 : Params :=
  { n := 1, f := 5, lo := 1, hi := 1, aoi := [[]], data := [],
    idxQuery := fun _ => [], polyWithin := fun _ _ => true, draws := fun _ => (1, 0, 0) }

/-- What one run of the loop guarantees about its final state `st₂` relative
to its start state `st`: the three result lists stay aligned and within the
target count, the geometry list only grows by appending, and every geometry
not already present at the start was accepted through the AOI test and is a
generated candidate. -/
def loopPost (P : Params) (st st₂ : LoopState) : Prop :=
  st₂.out_mean.length = st₂.out_geom.length ∧
  st₂.out_stdev.length = st₂.out_geom.length ∧
  st₂.out_geom.length ≤ P.n ∧
  (∃ tl, st₂.out_geom = st.out_geom ++ tl) ∧
  ∀ g ∈ st₂.out_geom, g ∈ st.out_geom ∨
    ((∃ A ∈ P.aoi, P.polyWithin g A = true) ∧ ∃ c, g = candAt P c)

/-- C6 counterexample: for the reachable draw value `-5/2` the code's origin
coordinate is `int(-2.5) = -2` (truncation toward zero) while the floor is
`-3`, so the claimed agreement of floor and the applied truncation fails on
negative non-integer draws. -/
theorem C6_counterexample_trunc_ne_floor :
    (originPt (-(5/2) : ℝ) 0).1 = -2 ∧ ⌊(-(5/2) : ℝ)⌋ = -3 ∧
      (originPt (-(5/2) : ℝ) 0).1 ≠ ⌊(-(5/2) : ℝ)⌋ := by
  have hceil : ⌈(-(5/2) : ℝ)⌉ = -2 := by
    rw [Int.ceil_eq_iff]
    constructor <;> norm_num
  have hfloor : ⌊(-(5/2) : ℝ)⌋ = -3 := by
    rw [Int.floor_eq_iff]
    constructor <;> norm_num
  have h1 : (originPt (-(5/2) : ℝ) 0).1 = -2 := by
    rw [originPt, pyInt, if_neg (by norm_num)]
    exact hceil
  exact ⟨h1, hfloor, by rw [h1, hfloor]; decide⟩

/-- C6 (amended): each origin coordinate is the truncation toward zero
(Python `int`) of the corresponding uniform draw; truncation agrees with the
floor for non-negative draws, so the claim's floor description holds there
(but not for negative non-integer draws, see the counterexample). -/
theorem C6_origin_trunc_amended (rx ry : ℝ) (hx : 0 ≤ rx) (hy : 0 ≤ ry) :
    originPt rx ry = (⌊rx⌋, ⌊ry⌋) := by
  rw [originPt, pyInt, pyInt, if_pos hx, if_pos hy]

/-- Witness for the amended C6 at the concrete draw `(0, 0)`. -/
theorem C6_origin_trunc_amended_witness :
    (0 : ℝ) ≤ 0 ∧ originPt 0 0 = (⌊(0 : ℝ)⌋, ⌊(0 : ℝ)⌋) :=
  ⟨le_refl 0, C6_origin_trunc_amended 0 0 (le_refl 0) (le_refl 0)⟩

/-- Cyclic edges of a quadrilateral, written out. -/
theorem edgesOf_quad (A B C D : Point) :
    edgesOf [A, B, C, D] = [(A, B), (B, C), (C, D), (D, A)] := rfl

/-- Shoelace sum of a quadrilateral, written out. -/
theorem shoelace_quad (A B C D : Point) :
    shoelace [A, B, C, D] = cross2 A B + cross2 B C + cross2 C D + cross2 D A := by
  simp [shoelace, edgesOf_quad]
  ring

/-- Shoelace sum of the script's axis-aligned square: its corner order is
clockwise, so the signed area is negative. -/
theorem shoelace_square (px py L : ℝ) : shoelace (squareAt px py L) = -2 * L ^ 2 := by
  rw [squareAt, shoelace_quad]
  simp [cross2]
  ring

/-- The area centroid of the script's square is its centre. -/
theorem polyCentroid_square (px py L : ℝ) (hL : L ≠ 0) :
    polyCentroid (squareAt px py L) = (px + L / 2, py + L / 2) := by
  have hS : shoelace (squareAt px py L) = -2 * L ^ 2 := shoelace_square px py L
  unfold polyCentroid
  rw [hS, squareAt, edgesOf_quad]
  rw [Prod.mk.injEq]
  constructor
  · simp [cross2]
    field_simp
    ring
  · simp [cross2]
    field_simp
    ring

/-- The candidate polygon in closed form: rotating the square by 45° about its
centre yields a diamond with half-diagonal `side · √2/2`. -/
theorem candidate_eq_diamond (a rx ry : ℝ) (ha : 0 < a) :
    candidate a rx ry =
      diamond (((originPt rx ry).1 : ℝ) + sideLen a / 2)
        (((originPt rx ry).2 : ℝ) + sideLen a / 2)
        (sideLen a * (Real.sqrt 2 / 2)) := by
  have hL0 : 0 < sideLen a := Real.sqrt_pos.mpr (by nlinarith)
  unfold candidate rotatePoly
  rw [polyCentroid_square _ _ _ hL0.ne']
  have hdeg : (45 : ℝ) * Real.pi / 180 = Real.pi / 4 := by ring
  rw [hdeg]
  simp only [squareAt, diamond, List.map_cons, List.map_nil, rotAbout,
    Real.cos_pi_div_four, Real.sin_pi_div_four, List.cons.injEq, and_true,
    Prod.mk.injEq]
  norm_num
  and_intros <;> ring

/-- Shoelace sum of the diamond. -/
theorem shoelace_diamond (cx cy h : ℝ) : shoelace (diamond cx cy h) = -4 * h ^ 2 := by
  rw [diamond, shoelace_quad]
  simp [cross2]
  ring

/-- The area of a candidate polygon is exactly the drawn hectare value times
10000: neither the origin truncation nor the rotation changes it. -/
theorem polyArea_candidate (a rx ry : ℝ) (ha : 0 < a) :
    polyArea (candidate a rx ry) = a * 10000 := by
  rw [candidate_eq_diamond a rx ry ha, polyArea, shoelace_diamond]
  have h2 : Real.sqrt 2 ^ 2 = 2 := Real.sq_sqrt (by norm_num)
  have hL : sideLen a ^ 2 = a * 10000 := Real.sq_sqrt (by nlinarith)
  have hd : (sideLen a * (Real.sqrt 2 / 2)) ^ 2 = a * 10000 / 2 := by
    rw [mul_pow, div_pow, h2, hL]
    ring
  rw [abs_of_nonpos (by nlinarith [sq_nonneg (sideLen a * (Real.sqrt 2 / 2))])]
  rw [hd]
  ring

/-- C5: every generated candidate geometry is the axis-aligned square with
corners `(x,y), (x,y+side), (x+side,y+side), (x+side,y)` rotated by exactly
45 degrees about its centroid — the code's construction (`rotate(Polygon(...),
45, origin='centroid')`, where the centroid is computed by the shoelace
formula) coincides with the spec's description (rotation by 45° about the
square's centre). -/
theorem C5_candidate_rotated_square (a rx ry : ℝ) (ha : 0 < a) :
    candidate a rx ry = rotatedSquareSpec (originPt rx ry) (sideLen a) := by
  have hL0 : 0 < sideLen a := Real.sqrt_pos.mpr (by nlinarith)
  unfold candidate rotatePoly rotatedSquareSpec
  rw [polyCentroid_square _ _ _ hL0.ne']
  rfl

/-- Witness for C5 at the concrete draw `(1, 0, 0)`. -/
theorem C5_candidate_rotated_square_witness :
    (0 : ℝ) < 1 ∧ candidate 1 0 0 = rotatedSquareSpec (originPt 0 0) (sideLen 1) :=
  ⟨by norm_num, C5_candidate_rotated_square 1 0 0 (by norm_num)⟩

/-- Bounding box of the diamond. -/
theorem polyBounds_diamond (cx cy h : ℝ) (hh : 0 < h) :
    polyBounds (diamond cx cy h) = ⟨cx - h, cy - h, cx + h, cy + h⟩ := by
  unfold polyBounds diamond
  simp only [List.foldl_cons, List.foldl_nil]
  rw [Box.mk.injEq]
  refine ⟨?_, ?_, ?_, ?_⟩
  · rw [min_eq_right (show cx - h ≤ cx by linarith),
      min_eq_left (show cx - h ≤ cx by linarith),
      min_eq_left (show cx - h ≤ cx + h by linarith)]
  · rw [min_eq_left (show cy - h ≤ cy by linarith),
      min_eq_left (show cy - h ≤ cy + h by linarith),
      min_eq_left (show cy - h ≤ cy by linarith)]
  · rw [max_eq_left (show cx - h ≤ cx by linarith), max_self,
      max_eq_right (show cx ≤ cx + h by linarith)]
  · rw [max_eq_right (show cy - h ≤ cy by linarith),
      max_eq_right (show cy ≤ cy + h by linarith),
      max_eq_left (show cy ≤ cy + h by linarith)]

/-- The half-plane conditions of a quadrilateral, written out. -/
theorem ptWithin_quad (p A B C D : Point) :
    ptWithin p [A, B, C, D] ↔
      (B.1 - A.1) * (p.2 - A.2) - (B.2 - A.2) * (p.1 - A.1) < 0 ∧
      (C.1 - B.1) * (p.2 - B.2) - (C.2 - B.2) * (p.1 - B.1) < 0 ∧
      (D.1 - C.1) * (p.2 - C.2) - (D.2 - C.2) * (p.1 - C.1) < 0 ∧
      (A.1 - D.1) * (p.2 - D.2) - (A.2 - D.2) * (p.1 - D.1) < 0 := by
  unfold ptWithin
  rw [edgesOf_quad]
  simp [List.forall_mem_cons]

/-- A point strictly inside a candidate polygon lies inside its bounding box;
this is the geometric fact that lets the rtree bbox query be a complete
pre-filter for the exact containment test. -/
theorem ptWithin_candidate_inBox (a rx ry : ℝ) (ha : 0 < a) (p : Point)
    (hw : ptWithin p (candidate a rx ry)) :
    ptInBox p (polyBounds (candidate a rx ry)) := by
  have hL0 : 0 < sideLen a := Real.sqrt_pos.mpr (by nlinarith)
  have hh : 0 < sideLen a * (Real.sqrt 2 / 2) := by positivity
  rw [candidate_eq_diamond a rx ry ha] at hw ⊢
  rw [polyBounds_diamond _ _ _ hh]
  rw [diamond, ptWithin_quad] at hw
  obtain ⟨h1, h2, h3, h4⟩ := hw
  simp only at h1 h2 h3 h4
  refine ⟨?_, ?_, ?_, ?_⟩ <;> nlinarith [h1, h2, h3, h4, hh]

/-- C7: assuming the rtree query returns every row id whose bounding box
intersects the candidate's bounding box (no false negatives), the aggregated
attribute values are exactly the values of the dataset points lying within the
candidate polygon — the index superset is narrowed by the exact
point-in-polygon test before statistics are computed. -/
theorem C7_aggregation_exact (data : List (Point × ℝ)) (idxQuery : Box → List ℕ)
    (a rx ry : ℝ) (ha : 0 < a)
    (hsup : ∀ (i : ℕ) (hi : i < data.length),
      ptInBox (data.get ⟨i, hi⟩).1 (polyBounds (candidate a rx ry)) →
        i ∈ idxQuery (polyBounds (candidate a rx ry))) :
    ∀ v : ℝ, v ∈ aggVals data idxQuery (candidate a rx ry) ↔
      ∃ pv ∈ data, ptWithin pv.1 (candidate a rx ry) ∧ pv.2 = v := by
  intro v
  unfold aggVals
  constructor
  · intro hv
    rcases List.mem_map.mp hv with ⟨pv, hpv, rfl⟩
    rcases List.mem_filter.mp hpv with ⟨hmem, hdec⟩
    have hw : ptWithin pv.1 (candidate a rx ry) :=
      @of_decide_eq_true _ (Classical.propDecidable _) hdec
    rcases List.mem_filterMap.mp hmem with ⟨i, _, hget⟩
    exact ⟨pv, List.get?_mem hget, hw, rfl⟩
  · rintro ⟨pv, hpv, hw, rfl⟩
    rcases List.mem_iff_get.mp hpv with ⟨⟨i, hi⟩, rfl⟩
    apply List.mem_map.mpr
    refine ⟨_, List.mem_filter.mpr ⟨?_, @decide_eq_true _ (Classical.propDecidable _) hw⟩, rfl⟩
    apply List.mem_filterMap.mpr
    exact ⟨i, hsup i hi (ptWithin_candidate_inBox a rx ry ha _ hw), List.get?_eq_get hi⟩

/-- Witness for C7 on an empty dataset and empty index result. -/
theorem C7_aggregation_exact_witness :
    (0 : ℝ) < 1 ∧
      (∀ (i : ℕ) (hi : i < ([] : List (Point × ℝ)).length),
        ptInBox (([] : List (Point × ℝ)).get ⟨i, hi⟩).1 (polyBounds (candidate 1 0 0)) →
          i ∈ (fun _ : Box => ([] : List ℕ)) (polyBounds (candidate 1 0 0))) ∧
      (∀ v : ℝ, v ∈ aggVals [] (fun _ => []) (candidate 1 0 0) ↔
        ∃ pv ∈ ([] : List (Point × ℝ)), ptWithin pv.1 (candidate 1 0 0) ∧ pv.2 = v) := by
  refine ⟨by norm_num, fun i hi => absurd hi (by simp), ?_⟩
  exact C7_aggregation_exact [] (fun _ => []) 1 0 0 (by norm_num)
    (fun i hi => absurd hi (by simp))

/-- One unfolding of the loop body. -/
theorem runLoop_succ (P : Params) (fuel : ℕ) (st : LoopState) :
    runLoop P (fuel + 1) st =
      if st.out_geom.length < P.n then
        if st.count + 1 = P.n * P.f then
          .ok (.gaveUp, { st with count := st.count + 1 })
        else
          if P.aoi.any (fun g => P.polyWithin (candAt P (st.count + 1)) g) = true then
            match pyMean (aggVals P.data P.idxQuery (candAt P (st.count + 1))),
                  pyPstdev (aggVals P.data P.idxQuery (candAt P (st.count + 1))) with
            | .error e, _ => .error e
            | .ok _, .error e => .error e
            | .ok m, .ok sd =>
                runLoop P fuel
                  ⟨st.count + 1, st.out_mean ++ [m], st.out_stdev ++ [sd],
                   st.out_geom ++ [candAt P (st.count + 1)]⟩
          else
            runLoop P fuel { st with count := st.count + 1 }
      else .ok (.reached, st) := rfl

/-- Accepting one candidate and then satisfying the post relation from the
extended state yields the post relation from the original state. -/
theorem loopPost_step (P : Params) (st st₂ : LoopState) (m sd : ℝ) (c : ℕ)
    (hQ : ∃ A ∈ P.aoi, P.polyWithin (candAt P c) A = true)
    (hp : loopPost P ⟨c, st.out_mean ++ [m], st.out_stdev ++ [sd],
      st.out_geom ++ [candAt P c]⟩ st₂) :
    loopPost P st st₂ := by
  obtain ⟨p1, p2, p3, ⟨tl, htl⟩, p5⟩ := hp
  refine ⟨p1, p2, p3, ⟨[candAt P c] ++ tl, by rw [htl]; simp⟩, ?_⟩
  intro g hg
  rcases p5 g hg with hmem | hok
  · rcases List.mem_append.mp hmem with hmem2 | hmem2
    · exact Or.inl hmem2
    · rcases List.mem_singleton.mp hmem2 with rfl
      exact Or.inr ⟨hQ, c, rfl⟩
  · exact Or.inr hok

/-- Master case analysis of a loop run: with fuel equal to the remaining
budget, the run either aborts with a statistics error, or exits through the
while-guard with exactly `sample_n` samples, or gives up with the counter
exactly at the budget and fewer than `sample_n` samples — `fuelOut` never
occurs, which is the termination argument for the while loop. -/
theorem runLoop_cases (P : Params) : ∀ (fuel : ℕ) (st : LoopState),
    st.out_mean.length = st.out_geom.length →
    st.out_stdev.length = st.out_geom.length →
    st.out_geom.length ≤ P.n →
    st.count + fuel = P.n * P.f →
    st.count < P.n * P.f →
    (∃ e, runLoop P fuel st = .error e) ∨
    (∃ st₂, runLoop P fuel st = .ok (.reached, st₂) ∧ loopPost P st st₂ ∧
      st₂.out_geom.length = P.n) ∨
    (∃ st₂, runLoop P fuel st = .ok (.gaveUp, st₂) ∧ loopPost P st st₂ ∧
      st₂.count = P.n * P.f ∧ st₂.out_geom.length < P.n) := by
  intro fuel
  induction fuel with
  | zero => intro st _ _ _ h4 h5; omega
  | succ fuel ih =>
    intro st h1 h2 h3 h4 h5
    rw [runLoop_succ]
    by_cases hg : st.out_geom.length < P.n
    · rw [if_pos hg]
      by_cases hb : st.count + 1 = P.n * P.f
      · rw [if_pos hb]
        right; right
        exact ⟨_, rfl, ⟨h1, h2, h3, ⟨[], by simp⟩, fun g hgm => Or.inl hgm⟩, hb, hg⟩
      · rw [if_neg hb]
        by_cases hi : P.aoi.any (fun g => P.polyWithin (candAt P (st.count + 1)) g) = true
        · rw [if_pos hi]
          cases hv : aggVals P.data P.idxQuery (candAt P (st.count + 1)) with
          | nil =>
            left
            exact ⟨.emptyData, by simp [pyMean, pyPstdev]⟩
          | cons v vs =>
            simp only [pyMean, pyPstdev]
            have key := ih ⟨st.count + 1,
              st.out_mean ++ [(v :: vs).sum / ((v :: vs).length : ℝ)],
              st.out_stdev ++ [Real.sqrt
                (((v :: vs).map (fun w =>
                  (w - (v :: vs).sum / ((v :: vs).length : ℝ)) ^ 2)).sum /
                  ((v :: vs).length : ℝ))],
              st.out_geom ++ [candAt P (st.count + 1)]⟩
              (by simp [h1]) (by simp [h2]) (by simp; omega) (by simp; omega) (by simp; omega)
            have hQ : ∃ A ∈ P.aoi, P.polyWithin (candAt P (st.count + 1)) A = true :=
              List.any_eq_true.mp hi
            rcases key with ⟨e, he⟩ | ⟨st₂, he, hp, hlen⟩ | ⟨st₂, he, hp, hc, hlen⟩
            · exact Or.inl ⟨e, he⟩
            · exact Or.inr (Or.inl ⟨st₂, he, loopPost_step P st st₂ _ _ _ hQ hp, hlen⟩)
            · exact Or.inr (Or.inr ⟨st₂, he, loopPost_step P st st₂ _ _ _ hQ hp, hc, hlen⟩)
        · rw [if_neg hi]
          have key := ih { st with count := st.count + 1 } h1 h2 h3 (by simp; omega)
            (by simp; omega)
          exact key
    · rw [if_neg hg]
      right; left
      exact ⟨st, rfl, ⟨h1, h2, h3, ⟨[], by simp⟩, fun g hgm => Or.inl hgm⟩, by omega⟩

/-- Concrete evaluation: under `P0` (empty AOI) the loop rejects its first
candidate and gives up on the second iteration when the counter hits the
budget `1 * 2 = 2`. -/
theorem runLoop_P0_eval : runLoop P0 2 initState = .ok (.gaveUp, ⟨2, [], [], []⟩) := rfl

/-- C1: the acceptance loop terminates for every size class: with fuel equal
to the budget `sample_n * termination_f` the run never exhausts its fuel; it
either aborts on an empty aggregate (the statistics exception, see C4), stops
with exactly `sample_n` accepted samples, or gives up exactly when the shared
attempt counter (bumped once per iteration, accepted or rejected alike)
reaches the budget, keeping the partial list of accepted samples in the final
state. -/
theorem C1_loop_termination (P : Params) (hb : 0 < P.n * P.f) :
    (∃ e, runLoop P (P.n * P.f) initState = .error e) ∨
    (∃ st, runLoop P (P.n * P.f) initState = .ok (.reached, st) ∧
      st.out_geom.length = P.n) ∨
    (∃ st, runLoop P (P.n * P.f) initState = .ok (.gaveUp, st) ∧
      st.count = P.n * P.f ∧ st.out_geom.length < P.n) := by
  rcases runLoop_cases P (P.n * P.f) initState rfl rfl (Nat.zero_le _) (Nat.zero_add _) hb
    with h | ⟨st, he, _, hlen⟩ | ⟨st, he, _, hc, hlen⟩
  · exact Or.inl h
  · exact Or.inr (Or.inl ⟨st, he, hlen⟩)
  · exact Or.inr (Or.inr ⟨st, he, hc, hlen⟩)

/-- Witness for C1 on the concrete parameter set `P0`. -/
theorem C1_loop_termination_witness :
    0 < P0.n * P0.f ∧
      ((∃ e, runLoop P0 (P0.n * P0.f) initState = .error e) ∨
       (∃ st, runLoop P0 (P0.n * P0.f) initState = .ok (.reached, st) ∧
         st.out_geom.length = P0.n) ∨
       (∃ st, runLoop P0 (P0.n * P0.f) initState = .ok (.gaveUp, st) ∧
         st.count = P0.n * P0.f ∧ st.out_geom.length < P0.n)) :=
  ⟨by norm_num [P0], C1_loop_termination P0 (by norm_num [P0])⟩

/-- C2: a candidate is accepted only if it is `within` at least one single
AOI polygon (the code tests polygon-by-polygon and ORs the results), so every
geometry in the final result list is within at least one AOI polygon. -/
theorem C2_accepted_within_aoi (P : Params) (hb : 0 < P.n * P.f) (k : ExitKind)
    (st : LoopState) (h : runLoop P (P.n * P.f) initState = .ok (k, st)) :
    ∀ g ∈ st.out_geom, ∃ A ∈ P.aoi, P.polyWithin g A = true := by
  rcases runLoop_cases P (P.n * P.f) initState rfl rfl (Nat.zero_le _) (Nat.zero_add _) hb
    with ⟨e, he⟩ | ⟨st₂, he, hp, _⟩ | ⟨st₂, he, hp, _, _⟩
  · rw [he] at h; exact absurd h (by simp)
  · rw [he] at h
    simp only [Except.ok.injEq, Prod.mk.injEq] at h
    obtain ⟨-, rfl⟩ := h
    intro g hg
    rcases hp.2.2.2.2 g hg with hmem | hok
    · exact absurd hmem (by simp [initState])
    · exact hok.1
  · rw [he] at h
    simp only [Except.ok.injEq, Prod.mk.injEq] at h
    obtain ⟨-, rfl⟩ := h
    intro g hg
    rcases hp.2.2.2.2 g hg with hmem | hok
    · exact absurd hmem (by simp [initState])
    · exact hok.1

/-- Witness for C2 on the concrete parameter set `P0`. -/
theorem C2_accepted_within_aoi_witness :
    0 < P0.n * P0.f ∧
      runLoop P0 (P0.n * P0.f) initState = .ok (.gaveUp, ⟨2, [], [], []⟩) ∧
      ∀ g ∈ (LoopState.mk 2 [] [] []).out_geom, ∃ A ∈ P0.aoi, P0.polyWithin g A = true :=
  ⟨by norm_num [P0], runLoop_P0_eval,
    C2_accepted_within_aoi P0 (by norm_num [P0]) .gaveUp _ runLoop_P0_eval⟩

/-- C3: for a size class `[lo, hi]` with positive bounds, every accepted
sample's exported `area` value (`geometry.area * 0.0001`) lies in `[lo, hi]`:
the side is `sqrt(area_ha * 10000)` for `area_ha` drawn in `[lo, hi]`, and
neither the origin truncation nor the 45° rotation changes the area (in exact
real arithmetic the value is the drawn `area_ha` itself). -/
theorem C3_area_in_class_bounds (P : Params) (hlo : 0 < P.lo)
    (hdraws : ∀ c, P.lo ≤ (P.draws c).1 ∧ (P.draws c).1 ≤ P.hi)
    (hb : 0 < P.n * P.f) (k : ExitKind) (st : LoopState)
    (h : runLoop P (P.n * P.f) initState = .ok (k, st)) :
    ∀ g ∈ st.out_geom, P.lo ≤ polyArea g * 0.0001 ∧ polyArea g * 0.0001 ≤ P.hi := by
  have main : ∀ st₂ : LoopState, loopPost P initState st₂ →
      ∀ g ∈ st₂.out_geom, P.lo ≤ polyArea g * 0.0001 ∧ polyArea g * 0.0001 ≤ P.hi := by
    intro st₂ hp g hg
    rcases hp.2.2.2.2 g hg with hmem | ⟨-, c, rfl⟩
    · exact absurd hmem (by simp [initState])
    · have hc := hdraws c
      have ha : 0 < (P.draws c).1 := lt_of_lt_of_le hlo hc.1
      rw [candAt, polyArea_candidate _ _ _ ha]
      constructor
      · calc P.lo ≤ (P.draws c).1 := hc.1
          _ = (P.draws c).1 * 10000 * 0.0001 := by ring
      · calc (P.draws c).1 * 10000 * 0.0001 = (P.draws c).1 := by ring
          _ ≤ P.hi := hc.2
  rcases runLoop_cases P (P.n * P.f) initState rfl rfl (Nat.zero_le _) (Nat.zero_add _) hb
    with ⟨e, he⟩ | ⟨st₂, he, hp, _⟩ | ⟨st₂, he, hp, _, _⟩
  · rw [he] at h; exact absurd h (by simp)
  · rw [he] at h
    simp only [Except.ok.injEq, Prod.mk.injEq] at h
    obtain ⟨-, rfl⟩ := h
    exact main st₂ hp
  · rw [he] at h
    simp only [Except.ok.injEq, Prod.mk.injEq] at h
    obtain ⟨-, rfl⟩ := h
    exact main st₂ hp

/-- Witness for C3 on the concrete parameter set `P0` (class `[1, 1]`,
constant draw 1). -/
theorem C3_area_in_class_bounds_witness :
    0 < P0.lo ∧ (∀ c, P0.lo ≤ (P0.draws c).1 ∧ (P0.draws c).1 ≤ P0.hi) ∧
      0 < P0.n * P0.f ∧
      runLoop P0 (P0.n * P0.f) initState = .ok (.gaveUp, ⟨2, [], [], []⟩) ∧
      ∀ g ∈ (LoopState.mk 2 [] [] []).out_geom,
        P0.lo ≤ polyArea g * 0.0001 ∧ polyArea g * 0.0001 ≤ P0.hi :=
  ⟨by norm_num [P0], fun c => by norm_num [P0], by norm_num [P0], runLoop_P0_eval,
    C3_area_in_class_bounds P0 (by norm_num [P0]) (fun c => by norm_num [P0])
      (by norm_num [P0]) .gaveUp _ runLoop_P0_eval⟩

/-- C4: when a candidate passes the AOI test but the aggregation yields zero
points, the run aborts with the explicit empty-input statistics error
(`statistics.mean` raises `StatisticsError` on an empty list before anything
is appended): no NaN/zero is produced and no sample is appended for that
candidate — the result is `.error`, not a state with extended lists. -/
theorem C4_empty_aggregation_error (P : Params) (fuel : ℕ) (st : LoopState)
    (hg : st.out_geom.length < P.n)
    (hb : st.count + 1 ≠ P.n * P.f)
    (hi : P.aoi.any (fun g => P.polyWithin (candAt P (st.count + 1)) g) = true)
    (hempty : aggVals P.data P.idxQuery (candAt P (st.count + 1)) = []) :
    runLoop P (fuel + 1) st = .error .emptyData := by
  rw [runLoop_succ, if_pos hg, if_neg hb, if_pos hi, hempty]
  simp [pyMean, pyPstdev]

/-- Witness for C4 on the concrete parameter set `P1` (accept-all AOI oracle,
index returns no rows). -/
theorem C4_empty_aggregation_error_witness :
    initState.out_geom.length < P1.n ∧
      initState.count + 1 ≠ P1.n * P1.f ∧
      P1.aoi.any (fun g => P1.polyWithin (candAt P1 (initState.count + 1)) g) = true ∧
      aggVals P1.data P1.idxQuery (candAt P1 (initState.count + 1)) = [] ∧
      runLoop P1 (1 + 1) initState = .error .emptyData := by
  have h1 : initState.out_geom.length < P1.n := by norm_num [P1, initState]
  have h2 : initState.count + 1 ≠ P1.n * P1.f := by norm_num [P1, initState]
  have h3 : P1.aoi.any (fun g => P1.polyWithin (candAt P1 (initState.count + 1)) g) = true := by
    simp [P1]
  have h4 : aggVals P1.data P1.idxQuery (candAt P1 (initState.count + 1)) = [] := by
    simp [aggVals, P1]
  exact ⟨h1, h2, h3, h4, C4_empty_aggregation_error P1 1 initState h1 h2 h3 h4⟩

/-- C8: after the per-class loop ends, an output dataset is produced if and
only if at least one sample was accepted; a class with zero accepted samples
yields `none` — no file and no error (`exportResult` is total). -/
theorem C8_export_iff_nonempty (P : Params) (fuel : ℕ) (st₀ : LoopState)
    (k : ExitKind) (st : LoopState) (h : runLoop P fuel st₀ = .ok (k, st)) :
    (exportResult st).isSome = true ↔ st.out_geom ≠ [] := by
  constructor
  · intro hs hnil
    unfold exportResult at hs
    rw [hnil] at hs
    simp at hs
  · intro hne
    unfold exportResult
    rw [if_pos (List.length_pos.mpr hne)]
    rfl

/-- Witness for C8 on the concrete parameter set `P0`. -/
theorem C8_export_iff_nonempty_witness :
    runLoop P0 2 initState = .ok (.gaveUp, ⟨2, [], [], []⟩) ∧
      ((exportResult ⟨2, [], [], []⟩).isSome = true ↔
        (LoopState.mk 2 [] [] []).out_geom ≠ []) :=
  ⟨runLoop_P0_eval, C8_export_iff_nonempty P0 2 initState .gaveUp _ runLoop_P0_eval⟩

/-- With an empty AOI every candidate is rejected, so the loop runs its full
budget and gives up with the start state's lists unchanged. -/
theorem runLoop_empty_aoi (P : Params) (haoi : P.aoi = []) :
    ∀ (fuel : ℕ) (st : LoopState), st.out_geom.length < P.n →
      st.count + fuel = P.n * P.f → st.count < P.n * P.f →
      runLoop P fuel st =
        .ok (.gaveUp, ⟨P.n * P.f, st.out_mean, st.out_stdev, st.out_geom⟩) := by
  intro fuel
  induction fuel with
  | zero => intro st _ h4 h5; omega
  | succ fuel ih =>
    intro st hg h4 h5
    rw [runLoop_succ, if_pos hg]
    by_cases hb : st.count + 1 = P.n * P.f
    · rw [if_pos hb, hb]
    · rw [if_neg hb]
      have hfalse : (P.aoi.any fun g => P.polyWithin (candAt P (st.count + 1)) g) = false := by
        rw [haoi]; rfl
      rw [if_neg (by simp [hfalse])]
      exact ih { st with count := st.count + 1 } hg (by simp; omega) (by simp; omega)

/-- C9 counterexample: the code performs no configuration validation.  With an
empty AOI and a non-empty point dataset, no error is raised before (or during)
sampling: the loop runs its full budget (the final counter is 2, so sampling
iterations did happen), ends normally with zero accepted samples, and no
output is produced. -/
theorem C9_counterexample_no_validation :
    P0.aoi = [] ∧ P0.data ≠ [] ∧ P0.n * P0.f = 2 ∧
      runLoop P0 2 initState = .ok (.gaveUp, ⟨2, [], [], []⟩) ∧
      exportResult ⟨2, [], [], []⟩ = none := by
  refine ⟨rfl, by simp [P0], rfl, runLoop_P0_eval, ?_⟩
  simp [exportResult]

/-- C9 (amended): the code performs no upfront validation; with an empty AOI
the sampling loop runs to budget exhaustion and terminates normally: zero
accepted samples, no output dataset, and no error of any kind. -/
theorem C9_no_validation_amended (P : Params) (haoi : P.aoi = []) (hb : 0 < P.n * P.f) :
    runLoop P (P.n * P.f) initState = .ok (.gaveUp, ⟨P.n * P.f, [], [], []⟩) ∧
      exportResult ⟨P.n * P.f, [], [], []⟩ = none := by
  have hn : 0 < P.n := by
    rcases Nat.eq_zero_or_pos P.n with h0 | h0
    · rw [h0] at hb; simp at hb
    · exact h0
  constructor
  · exact runLoop_empty_aoi P haoi (P.n * P.f) initState hn (Nat.zero_add _) hb
  · simp [exportResult]

/-- Witness for the amended C9 on the concrete parameter set `P0`. -/
theorem C9_no_validation_amended_witness :
    P0.aoi = [] ∧ 0 < P0.n * P0.f ∧
      runLoop P0 (P0.n * P0.f) initState = .ok (.gaveUp, ⟨P0.n * P0.f, [], [], []⟩) ∧
      exportResult ⟨P0.n * P0.f, [], [], []⟩ = none :=
  ⟨rfl, by norm_num [P0], C9_no_validation_amended P0 rfl (by norm_num [P0])⟩

/-- C10: the loop invariant of the three result lists: starting from any state
where `out_mean`, `out_stdev`, `out_geom` are aligned and within the target
count, any normal exit of the loop leaves them aligned and within the target
count — each acceptance appends exactly one element to each list, so every
exported record pairs one geometry with exactly one mean and one stdev. -/
theorem C10_result_lists_invariant (P : Params) (fuel : ℕ) (st : LoopState)
    (h1 : st.out_mean.length = st.out_geom.length)
    (h2 : st.out_stdev.length = st.out_geom.length)
    (h3 : st.out_geom.length ≤ P.n)
    (h4 : st.count + fuel = P.n * P.f) (h5 : st.count < P.n * P.f)
    (k : ExitKind) (st₂ : LoopState)
    (h : runLoop P fuel st = .ok (k, st₂)) :
    st₂.out_mean.length = st₂.out_geom.length ∧
      st₂.out_stdev.length = st₂.out_geom.length ∧
      st₂.out_geom.length ≤ P.n := by
  rcases runLoop_cases P fuel st h1 h2 h3 h4 h5
    with ⟨e, he⟩ | ⟨s, he, hp, _⟩ | ⟨s, he, hp, _, _⟩
  · rw [he] at h; exact absurd h (by simp)
  · rw [he] at h
    simp only [Except.ok.injEq, Prod.mk.injEq] at h
    obtain ⟨-, rfl⟩ := h
    exact ⟨hp.1, hp.2.1, hp.2.2.1⟩
  · rw [he] at h
    simp only [Except.ok.injEq, Prod.mk.injEq] at h
    obtain ⟨-, rfl⟩ := h
    exact ⟨hp.1, hp.2.1, hp.2.2.1⟩

/-- Witness for C10 on the concrete parameter set `P0`. -/
theorem C10_result_lists_invariant_witness :
    initState.out_mean.length = initState.out_geom.length ∧
      initState.out_stdev.length = initState.out_geom.length ∧
      initState.out_geom.length ≤ P0.n ∧
      initState.count + 2 = P0.n * P0.f ∧ initState.count < P0.n * P0.f ∧
      runLoop P0 2 initState = .ok (.gaveUp, ⟨2, [], [], []⟩) ∧
      ((LoopState.mk 2 [] [] []).out_mean.length = (LoopState.mk 2 [] [] []).out_geom.length ∧
        (LoopState.mk 2 [] [] []).out_stdev.length = (LoopState.mk 2 [] [] []).out_geom.length ∧
        (LoopState.mk 2 [] [] []).out_geom.length ≤ P0.n) :=
  ⟨rfl, rfl, Nat.zero_le _, by norm_num [P0, initState], by norm_num [P0, initState],
    runLoop_P0_eval,
    C10_result_lists_invariant P0 2 initState rfl rfl (Nat.zero_le _)
      (by norm_num [P0, initState]) (by norm_num [P0, initState]) .gaveUp _ runLoop_P0_eval⟩

end Farm
